import Mathlib

set_option maxRecDepth 4000

/-!
Verification development for the givenergy-modbus core: a shallow embedding of
the write-holding-register codec (src/givenergy_modbus/pdu/write_registers.py)
and the GivEnergy Modbus framer (src/givenergy_modbus/framer.py), together with
theorems settling the specified properties.

Bytes are modelled as natural numbers (each < 256 in well-formed data), byte
strings as lists of naturals, machine arithmetic with explicit mod where it
matters, and Python exceptions as explicit error values.
-/

/-- Decidable equality for Except values, so that concrete runs of the
embedded fallible operations can be checked by evaluation. -/
instance {ε α : Type} [DecidableEq ε] [DecidableEq α] : DecidableEq (Except ε α) := by
  intro a b
  cases a with
  | error e1 =>
    cases b with
    | error e2 =>
      exact if h : e1 = e2 then .isTrue (by rw [h])
        else .isFalse (fun hh => h (Except.error.injEq .. ▸ hh))
    | ok y => exact .isFalse (fun hh => Except.noConfusion hh)
  | ok x =>
    cases b with
    | error e2 => exact .isFalse (fun hh => Except.noConfusion hh)
    | ok y =>
      exact if h : x = y then .isTrue (by rw [h])
        else .isFalse (fun hh => h (Except.ok.injEq .. ▸ hh))

/-- Big-endian encoding of a 16-bit unsigned integer into two bytes, as
performed by struct.pack with format H / BinaryPayloadBuilder.add_16bit_uint.
For inputs below 0x10000 this is exact. -/
def u16be (n : Nat) : List Nat := [n / 256 % 256, n % 256]

/-- One bit step of the reflected Modbus CRC-16 (polynomial 0xA001, the
bit-reversed 0x8005): shift right, conditionally xoring the polynomial.
Models the external crccheck.crc.CrcModbus algorithm. -/
def crc16Bit (crc : Nat) : Nat :=
  if crc % 2 = 1 then crc / 2 ^^^ 0xA001 else crc / 2

/-- Iterate the CRC bit step. -/
def crc16Bits : Nat → Nat → Nat
  | 0, crc => crc
  | n + 1, crc => crc16Bits n (crc16Bit crc)

/-- Process one byte of the Modbus CRC-16: xor it into the register and run
eight bit steps. -/
def crc16Byte (crc b : Nat) : Nat := crc16Bits 8 (crc ^^^ b)

/-- Classic Modbus CRC-16 over a byte list: initial value 0xFFFF, reflected
polynomial 0xA001, no final xor. Models CrcModbus().process(data).final(). -/
def crc16 (bs : List Nat) : Nat := bs.foldl crc16Byte 0xFFFF

/-- A holding-register identifier: a member of the external HoldingRegister
enumeration, carrying its name and its numeric (16-bit) register address.
The catalog itself is an external collaborator; this core only relies on
member identity and the numeric address. -/
structure HoldingRegister where
  name : String
  value : Nat
deriving DecidableEq

/-- Canonical list of registers that are safe to write to
(WRITE_SAFE_REGISTERS in write_registers.py), identified by enum member
name exactly as in the source. -/
def WRITE_SAFE_REGISTERS : List String :=
  [ "BATTERY_CHARGE_LIMIT",
    "BATTERY_DISCHARGE_LIMIT",
    "BATTERY_DISCHARGE_MIN_POWER_RESERVE",
    "BATTERY_POWER_MODE",
    "BATTERY_SOC_RESERVE",
    "CHARGE_SLOT_1_END",
    "CHARGE_SLOT_1_START",
    "CHARGE_SLOT_2_END",
    "CHARGE_SLOT_2_START",
    "CHARGE_TARGET_SOC",
    "DISCHARGE_SLOT_1_END",
    "DISCHARGE_SLOT_1_START",
    "DISCHARGE_SLOT_2_END",
    "DISCHARGE_SLOT_2_START",
    "ENABLE_CHARGE",
    "ENABLE_CHARGE_TARGET",
    "ENABLE_DISCHARGE",
    "SYSTEM_TIME_DAY",
    "SYSTEM_TIME_HOUR",
    "SYSTEM_TIME_MINUTE",
    "SYSTEM_TIME_MONTH",
    "SYSTEM_TIME_SECOND",
    "SYSTEM_TIME_YEAR" ]

/-- The InvalidPduState exceptions raised by write_registers.py, one
constructor per raise site (identified by its message in the source). -/
inductive InvalidPduState where
  /-- Raised with message Register must be set. -/
  | registerMustBeSet
  /-- Raised with message Register value must be set. -/
  | valueMustBeSet
  /-- Raised with message Value must be an unsigned 16-bit int. -/
  | valueRange
  /-- Raised with message register is not safe to write to. -/
  | unsafeRegister
deriving DecidableEq

/-- A WriteHoldingRegister message (request or response): register identifier,
value (a Python int, possibly absent), slave address and the retained check
code. The register field is optional to model the defensive None check in
ensure_valid_state, although construction rejects an absent register. -/
structure WriteHoldingRegister where
  register : Option HoldingRegister
  value : Option Int
  slave_address : Nat
  check : Nat
deriving DecidableEq

/-- Construction of a WriteHoldingRegister message, modelling the register
handling of WriteHoldingRegister.init in write_registers.py restricted to the
enum-member and None branches (the int and str branches go through the
external catalog lookup). A None register raises InvalidPduState. -/
def mkWriteHoldingRegister (register : Option HoldingRegister) (value : Option Int)
    (slave_address : Nat) (check : Nat) : Except InvalidPduState WriteHoldingRegister :=
  match register with
  | none => .error .registerMustBeSet
  | some r => .ok ⟨some r, value, slave_address, check⟩

/-- WriteHoldingRegister.ensure_valid_state from write_registers.py, verbatim:
register None check, value None check, then the chained comparison
0 > value > 0xFFFF from the source (conjunction of both comparisons).
The call to the superclass ensure_valid_state is modelled from the spec as
imposing no further checks on a write command. -/
def WriteHoldingRegister.ensure_valid_state (m : WriteHoldingRegister) :
    Except InvalidPduState Unit :=
  match m.register with
  | none => .error .registerMustBeSet
  | some _ =>
    match m.value with
    | none => .error .valueMustBeSet
    | some v => if 0 > v ∧ v > 0xFFFF then .error .valueRange else .ok ()

/-- WriteHoldingRegisterRequest.ensure_valid_state: the superclass checks
followed by the write-safe allow-list gate. Membership of the Python set of
enum members is membership of the member name in WRITE_SAFE_REGISTERS.
The none branch is unreachable because the superclass check errors first. -/
def WriteHoldingRegisterRequest.ensure_valid_state (m : WriteHoldingRegister) :
    Except InvalidPduState Unit :=
  match WriteHoldingRegister.ensure_valid_state m with
  | .error e => .error e
  | .ok _ =>
    match m.register with
    | some r =>
      if r.name ∈ WRITE_SAFE_REGISTERS then .ok () else .error .unsafeRegister
    | none => .error .unsafeRegister

/-- Modelled from the spec: the leading PDU bytes emitted by the external
TransparentRequest/TransparentMessage encode scaffolding before the
write-specific fields — the fixed dummy serial AB1234G567 (10 bytes), one
zero pad byte, the slave address byte, and the inner function code 6. -/
def requestPduHead (slave_address : Nat) : List Nat :=
  [0x41, 0x42, 0x31, 0x32, 0x33, 0x34, 0x47, 0x35, 0x36, 0x37, 0x00, slave_address, 0x06]

/-- The check code computed by WriteHoldingRegisterRequest._update_check_code:
the Modbus CRC-16 over inner function code (1 byte), register address
(2 bytes big-endian) and value (2 bytes big-endian). -/
def writeRequestCheck (m : WriteHoldingRegister) : Nat :=
  crc16 ([0x06] ++ u16be ((m.register.map HoldingRegister.value).getD 0)
    ++ u16be ((m.value.getD 0).toNat % 0x10000))

/-- WriteHoldingRegister._encode_function_data for a request: the scaffolding
head, then register address, value and the check code appended last,
each 16-bit big-endian. Evaluated only on validated in-range state, where
the explicit mod matches struct.pack exactly. -/
def encodeFunctionData (m : WriteHoldingRegister) : List Nat :=
  requestPduHead m.slave_address
    ++ u16be ((m.register.map HoldingRegister.value).getD 0)
    ++ u16be ((m.value.getD 0).toNat % 0x10000)
    ++ u16be (writeRequestCheck m)

/-- The encode_request operation of the spec: construct the request message,
run WriteHoldingRegisterRequest.ensure_valid_state, and only on success
produce the encoded PDU bytes. -/
def encode_request (register : Option HoldingRegister) (value : Option Int)
    (slave_address : Nat) : Except InvalidPduState (List Nat) :=
  match mkWriteHoldingRegister register value slave_address 0 with
  | .error e => .error e
  | .ok m =>
    match WriteHoldingRegisterRequest.ensure_valid_state m with
    | .error e => .error e
    | .ok _ => .ok (encodeFunctionData m)

/-- WriteHoldingRegister._decode_inner_function: read register address, value
and check code as 16-bit big-endian fields and construct the message. The
register address goes through the external catalog lookup (HoldingRegister
of the number), which fails for unknown addresses. -/
def decode_inner_function (lookup : Nat → Option HoldingRegister)
    (slave_address : Nat) (d : List Nat) : Option WriteHoldingRegister :=
  match d with
  | r1 :: r0 :: v1 :: v0 :: c1 :: c0 :: _ =>
    match lookup (r1 * 256 + r0) with
    | some reg =>
      match mkWriteHoldingRegister (some reg) (some (Int.ofNat (v1 * 256 + v0)))
          slave_address (c1 * 256 + c0) with
      | .ok m => some m
      | .error _ => none
    | none => none
  | _ => none

/-- Modelled from the spec: the external decode dispatcher consumes the PDU
head — serial (10 bytes), pad (1 byte), slave address (1 byte) and the inner
function code (1 byte) — and dispatches on the inner function code, invoking
the write codec for code 6; anything else or a short payload fails. -/
def decode (lookup : Nat → Option HoldingRegister) (payload : List Nat) :
    Option WriteHoldingRegister :=
  match payload with
  | _s0 :: _s1 :: _s2 :: _s3 :: _s4 :: _s5 :: _s6 :: _s7 :: _s8 :: _s9 ::
      _pad :: addr :: fn :: rest =>
    if fn = 6 then decode_inner_function lookup addr rest else none
  | _ => none

/-- WriteHoldingRegisterRequest.expected_response: construct a response
carrying the same register, value and slave address (the check attribute is
left at its construction default). -/
def expected_response (m : WriteHoldingRegister) :
    Except InvalidPduState WriteHoldingRegister :=
  mkWriteHoldingRegister m.register m.value m.slave_address 0

/-- The mutable state of a GivEnergyModbusFramer: the accumulating byte
buffer and the cached declared length (the source fields buffer and length;
the header size is the constant 8). -/
structure Framer where
  buffer : List Nat
  length : Nat
deriving DecidableEq

/-- GivEnergyModbusFramer.isFrameReady: the buffer holds at least one full
8-byte header. -/
def Framer.isFrameReady (f : Framer) : Bool := decide (8 ≤ f.buffer.length)

/-- GivEnergyModbusFramer.resetFrame: clear the whole buffer and the cached
length. -/
def Framer.resetFrame (_f : Framer) : Framer := ⟨[], 0⟩

/-- GivEnergyModbusFramer.advanceFrame: pop hsize + length - 2 bytes off the
front of the buffer and reset the cached length. -/
def Framer.advanceFrame (f : Framer) : Framer :=
  ⟨f.buffer.drop (8 + f.length - 2), 0⟩

/-- GivEnergyModbusFramer.addToFrame: append incoming data to the buffer. -/
def Framer.addToFrame (f : Framer) (message : List Nat) : Framer :=
  ⟨f.buffer ++ message, f.length⟩

/-- GivEnergyModbusFramer.getFrame: the slice buffer[8 : 8 + length - 2]. -/
def Framer.getFrame (f : Framer) : List Nat :=
  (f.buffer.drop 8).take (f.length - 2)

/-- The parsed MBAP header as unpacked by struct with format HHHBB. -/
structure MbapHeader where
  transaction : Nat
  protocol : Nat
  length : Nat
  unit : Nat
  fcode : Nat
deriving DecidableEq

/-- GivEnergyModbusFramer.decode_data: when a header is ready, unpack the
five big-endian fields from the first 8 bytes and check the sentinel values;
on mismatch, reset the frame and raise ValueError (the error value carries
the post-reset state); when no header is ready, return the empty dict
(modelled as none). The getD defaults are never hit: the ready check
guarantees eight bytes. -/
def Framer.decode_data (f : Framer) : Except Framer (Option MbapHeader × Framer) :=
  if f.isFrameReady then
    let tid := f.buffer.getD 0 0 * 256 + f.buffer.getD 1 0
    let pid := f.buffer.getD 2 0 * 256 + f.buffer.getD 3 0
    let len_ := f.buffer.getD 4 0 * 256 + f.buffer.getD 5 0
    let uid := f.buffer.getD 6 0
    let fid := f.buffer.getD 7 0
    if tid ≠ 0x5959 ∨ pid ≠ 0x1 ∨ uid ≠ 0x1 ∨ fid ≠ 0x2 then
      .error f.resetFrame
    else
      .ok (some ⟨tid, pid, len_, uid, fid⟩, f)
  else
    .ok (none, f)

/-- GivEnergyModbusFramer.checkFrame: when a header is ready, decode it
(propagating the ValueError on corruption), cache the declared length, drop
a short frame (declared length < 2) by advancing and reporting false, report
true when the whole frame is buffered, and false otherwise. The none branch
is unreachable: decode_data always yields a header once a frame is ready
(in the source it would be a KeyError on the empty dict). -/
def Framer.checkFrame (f : Framer) : Except Framer (Bool × Framer) :=
  if f.isFrameReady then
    match f.decode_data with
    | .error f1 => .error f1
    | .ok (some h, f1) =>
      let f2 : Framer := ⟨f1.buffer, h.length⟩
      if f2.length < 2 then .ok (false, f2.advanceFrame)
      else if 8 + f2.length - 2 ≤ f2.buffer.length then .ok (true, f2)
      else .ok (false, f2)
    | .ok (none, f1) => .error f1
  else
    .ok (false, f)

/-- The exceptions that can escape GivEnergyModbusFramer.processIncomingPacket,
plus a fuel marker that is never reached when the loop is run with the fuel
supplied by processIncomingPacket. -/
inductive FramerErr where
  /-- The ValueError raised by decode_data on a corrupt header. -/
  | valueError
  /-- The ModbusIOException raised by _process when the decoder yields None. -/
  | modbusIOError
  /-- Step-index exhaustion of the embedded loop; never produced for the
  fuel chosen by processIncomingPacket. -/
  | outOfFuel
deriving DecidableEq

/-- The while-true loop of GivEnergyModbusFramer.processIncomingPacket,
step-indexed. Returns the messages handed to the callback in order, the final
framer state, and the exception that escaped, if any. Each iteration: stop
when no header is ready; on checkFrame failure, log and resetFrame and loop;
otherwise _process: getFrame, decode it (None raises ModbusIOException before
advancing), advanceFrame, hand the result to the callback, and loop. -/
def processLoop {Msg : Type} (decodeFn : List Nat → Option Msg) :
    Nat → Framer → List Msg → List Msg × Framer × Option FramerErr
  | 0, f, acc => (acc, f, some .outOfFuel)
  | fuel + 1, f, acc =>
    if f.isFrameReady then
      match f.checkFrame with
      | .error f1 => (acc, f1, some .valueError)
      | .ok (true, f1) =>
        match decodeFn f1.getFrame with
        | none => (acc, f1, some .modbusIOError)
        | some m => processLoop decodeFn fuel f1.advanceFrame (acc ++ [m])
      | .ok (false, f1) => processLoop decodeFn fuel f1.resetFrame acc
    else (acc, f, none)

/-- GivEnergyModbusFramer.processIncomingPacket: add the data to the frame
buffer and run the processing loop. The fuel buffer-length + 2 dominates the
possible number of iterations, since every continuing iteration either
empties the buffer or pops at least 8 bytes. -/
def processIncomingPacket {Msg : Type} (decodeFn : List Nat → Option Msg)
    (data : List Nat) (f : Framer) : List Msg × Framer × Option FramerErr :=
  let f1 := f.addToFrame data
  processLoop decodeFn (f1.buffer.length + 2) f1 []

/-- GivEnergyModbusFramer.buildPacket applied to the encoded PDU bytes of a
message: the constant sentinel header with declared length two more than the
PDU length, followed by the PDU bytes. -/
def buildPacket (enc : List Nat) : List Nat :=
  u16be 0x5959 ++ u16be 0x0001 ++ u16be (enc.length + 2) ++ [0x01, 0x02] ++ enc

/-- The extract_payload operation of the spec: getFrame after the declared
length has been read from the packet header by decode_data. -/
def extract_payload (pkt : List Nat) : List Nat :=
  Framer.getFrame ⟨pkt, pkt.getD 4 0 * 256 + pkt.getD 5 0⟩

/-- Parsing two big-endian bytes recovers any 16-bit value. -/
lemma u16be_parse {n : Nat} (h : n ≤ 0xFFFF) :
    n / 256 % 256 * 256 + n % 256 = n := by
  have hdiv : n / 256 < 256 := by omega
  rw [Nat.mod_eq_of_lt hdiv]
  omega

/-- The base-class validation succeeds on every message whose register and
value are both set, whatever the integer value: the chained comparison in the
source is unsatisfiable, so the range check never fires. -/
lemma whr_esv_ok (r : HoldingRegister) (v : Int) (a c : Nat) :
    WriteHoldingRegister.ensure_valid_state ⟨some r, some v, a, c⟩ = .ok () := by
  show (if 0 > v ∧ v > 0xFFFF then _ else _) = _
  rw [if_neg]
  omega

/-- Request validation on a fully-set message reduces to the allow-list
gate. -/
lemma whrr_esv_eq (r : HoldingRegister) (v : Int) (a c : Nat) :
    WriteHoldingRegisterRequest.ensure_valid_state ⟨some r, some v, a, c⟩ =
      if r.name ∈ WRITE_SAFE_REGISTERS then .ok () else .error .unsafeRegister := by
  unfold WriteHoldingRegisterRequest.ensure_valid_state
  rw [whr_esv_ok]

/-- encode_request on a set register and value reduces to the allow-list gate
followed by the byte production. -/
lemma encode_request_eq (r : HoldingRegister) (v : Int) (a : Nat) :
    encode_request (some r) (some v) a =
      if r.name ∈ WRITE_SAFE_REGISTERS then .ok (encodeFunctionData ⟨some r, some v, a, 0⟩)
      else .error .unsafeRegister := by
  show (match WriteHoldingRegisterRequest.ensure_valid_state ⟨some r, some v, a, 0⟩ with
    | .error e => (.error e : Except InvalidPduState (List Nat))
    | .ok _ => .ok (encodeFunctionData ⟨some r, some v, a, 0⟩)) = _
  rw [whrr_esv_eq]
  by_cases h : r.name ∈ WRITE_SAFE_REGISTERS
  · rw [if_pos h, if_pos h]
  · rw [if_neg h, if_neg h]

/-- decode_data on a buffer with at least eight bytes, written bytewise. -/
lemma decode_data_eq (t1 t0 p1 p0 l1 l0 uid fid : Nat) (rest : List Nat) (L : Nat) :
    Framer.decode_data ⟨t1 :: t0 :: p1 :: p0 :: l1 :: l0 :: uid :: fid :: rest, L⟩ =
      if t1 * 256 + t0 ≠ 0x5959 ∨ p1 * 256 + p0 ≠ 0x1 ∨ uid ≠ 0x1 ∨ fid ≠ 0x2 then
        .error ⟨[], 0⟩
      else
        .ok (some ⟨t1 * 256 + t0, p1 * 256 + p0, l1 * 256 + l0, uid, fid⟩,
          ⟨t1 :: t0 :: p1 :: p0 :: l1 :: l0 :: uid :: fid :: rest, L⟩) := by
  have hready : Framer.isFrameReady ⟨t1 :: t0 :: p1 :: p0 :: l1 :: l0 :: uid :: fid :: rest, L⟩
      = true := by
    simp [Framer.isFrameReady]
  unfold Framer.decode_data
  rw [hready]
  simp only [if_true, List.getD_cons_zero, List.getD_cons_succ, Framer.resetFrame]

/-- One loop iteration, buffer too short for a header: stop and return. -/
lemma processLoop_step_break {Msg : Type} (decodeFn : List Nat → Option Msg) (fuel : Nat)
    (f : Framer) (acc : List Msg) (h : f.isFrameReady = false) :
    processLoop decodeFn (fuel + 1) f acc = (acc, f, none) := by
  simp [processLoop, h]

/-- The loop on an empty buffer returns immediately with any positive fuel. -/
lemma processLoop_nil {Msg : Type} (decodeFn : List Nat → Option Msg) (n : Nat)
    (acc : List Msg) (hn : 1 ≤ n) :
    processLoop decodeFn n ⟨[], 0⟩ acc = (acc, ⟨[], 0⟩, none) := by
  cases n with
  | zero => omega
  | succ k => exact processLoop_step_break decodeFn k ⟨[], 0⟩ acc (by rfl)

/-- One loop iteration in which checkFrame raises the corruption ValueError:
the loop stops and the exception escapes with the post-reset state. -/
lemma processLoop_step_error {Msg : Type} (decodeFn : List Nat → Option Msg) (fuel : Nat)
    (f f1 : Framer) (acc : List Msg) (h1 : f.isFrameReady = true)
    (h2 : f.checkFrame = .error f1) :
    processLoop decodeFn (fuel + 1) f acc = (acc, f1, some .valueError) := by
  simp [processLoop, h1, h2]

/-- One loop iteration in which checkFrame reports a complete frame and the
decoder yields a message: getFrame, decode, advance, deliver, and loop. -/
lemma processLoop_step_deliver {Msg : Type} (decodeFn : List Nat → Option Msg) (fuel : Nat)
    (f f1 : Framer) (acc : List Msg) (m : Msg) (h1 : f.isFrameReady = true)
    (h2 : f.checkFrame = .ok (true, f1)) (h3 : decodeFn f1.getFrame = some m) :
    processLoop decodeFn (fuel + 1) f acc =
      processLoop decodeFn fuel f1.advanceFrame (acc ++ [m]) := by
  simp [processLoop, h1, h2, h3]

/-- One loop iteration in which checkFrame reports false: the caller resets
the whole buffer and loops. -/
lemma processLoop_step_reset {Msg : Type} (decodeFn : List Nat → Option Msg) (fuel : Nat)
    (f f1 : Framer) (acc : List Msg) (h1 : f.isFrameReady = true)
    (h2 : f.checkFrame = .ok (false, f1)) :
    processLoop decodeFn (fuel + 1) f acc = processLoop decodeFn fuel ⟨[], 0⟩ acc := by
  simp [processLoop, h1, h2, Framer.resetFrame]

/-- A built packet spelled out bytewise. -/
lemma buildPacket_cons (p : List Nat) :
    buildPacket p = 0x59 :: 0x59 :: 0x00 :: 0x01 :: ((p.length + 2) / 256 % 256) ::
      ((p.length + 2) % 256) :: 0x01 :: 0x02 :: p := by
  simp [buildPacket, u16be]

/-- A buffer starting with a built packet has a header ready. -/
lemma isFrameReady_packet (p rest : List Nat) (L : Nat) :
    Framer.isFrameReady ⟨buildPacket p ++ rest, L⟩ = true := by
  rw [buildPacket_cons]
  simp [Framer.isFrameReady]

/-- checkFrame on a buffer starting with a complete built packet: the header
validates, the declared length is cached, and the frame is reported
complete. -/
lemma checkFrame_packet (p rest : List Nat) (L : Nat) (hlen : p.length + 2 ≤ 0xFFFF) :
    Framer.checkFrame ⟨buildPacket p ++ rest, L⟩ =
      .ok (true, ⟨buildPacket p ++ rest, p.length + 2⟩) := by
  have hready := isFrameReady_packet p rest L
  unfold Framer.checkFrame
  rw [hready]
  simp only [eq_self_iff_true, if_true]
  rw [buildPacket_cons, List.cons_append, List.cons_append, List.cons_append,
    List.cons_append, List.cons_append, List.cons_append, List.cons_append,
    List.cons_append, decode_data_eq, if_neg (by decide)]
  simp only [u16be_parse hlen]
  rw [if_neg (by omega)]
  rw [if_pos (by simp; omega)]

/-- getFrame on a buffer starting with a built packet whose declared length
is cached: exactly the packet payload. -/
lemma getFrame_packet (p rest : List Nat) :
    Framer.getFrame ⟨buildPacket p ++ rest, p.length + 2⟩ = p := by
  rw [Framer.getFrame, buildPacket_cons]
  show (p ++ rest).take (p.length + 2 - 2) = p
  rw [Nat.add_sub_cancel]
  exact List.take_left p rest

/-- advanceFrame past a built packet leaves exactly the trailing bytes. -/
lemma advanceFrame_packet (p rest : List Nat) :
    Framer.advanceFrame ⟨buildPacket p ++ rest, p.length + 2⟩ = ⟨rest, 0⟩ := by
  rw [Framer.advanceFrame, buildPacket_cons]
  show (⟨(0x59 :: 0x59 :: 0x00 :: 0x01 :: ((p.length + 2) / 256 % 256) ::
    ((p.length + 2) % 256) :: 0x01 :: 0x02 :: p ++ rest).drop (8 + (p.length + 2) - 2),
    0⟩ : Framer) = ⟨rest, 0⟩
  have h2 : 8 + (p.length + 2) - 2 = p.length + 8 := by omega
  rw [h2]
  show Framer.mk ((p ++ rest).drop p.length) 0 = ⟨rest, 0⟩
  rw [List.drop_left p rest]

/-- One loop iteration across a complete leading built packet whose payload
decodes: the packet is consumed and its message appended. -/
lemma processLoop_packet {Msg : Type} (decodeFn : List Nat → Option Msg) (fuel : Nat)
    (p rest : List Nat) (L : Nat) (acc : List Msg) (m : Msg)
    (hm : decodeFn p = some m) (hlen : p.length + 2 ≤ 0xFFFF) :
    processLoop decodeFn (fuel + 1) ⟨buildPacket p ++ rest, L⟩ acc =
      processLoop decodeFn fuel ⟨rest, 0⟩ (acc ++ [m]) := by
  rw [processLoop_step_deliver decodeFn fuel _ _ acc m (isFrameReady_packet p rest L)
    (checkFrame_packet p rest L hlen) (by rw [getFrame_packet]; exact hm)]
  rw [advanceFrame_packet]

/-- Processing a single complete built packet from a fresh framer delivers
exactly its decoded message and leaves the buffer empty. -/
lemma processIncomingPacket_single {Msg : Type} (decodeFn : List Nat → Option Msg)
    (p : List Nat) (m : Msg) (hm : decodeFn p = some m) (hlen : p.length + 2 ≤ 0xFFFF) :
    processIncomingPacket decodeFn (buildPacket p) ⟨[], 0⟩ = ([m], ⟨[], 0⟩, none) := by
  unfold processIncomingPacket Framer.addToFrame
  simp only [List.nil_append]
  rw [show (buildPacket p).length + 2 = ((buildPacket p).length + 1) + 1 from rfl]
  rw [show (buildPacket p : List Nat) = buildPacket p ++ [] from (List.append_nil _).symm]
  rw [processLoop_packet decodeFn _ p [] 0 [] m hm hlen]
  rw [processLoop_nil decodeFn _ _ (by omega)]
  rfl

/-- An arbitrary 8-byte header written with u16be fields, spelled bytewise. -/
lemma header_cons (tid pid len_ uid fid : Nat) (rest : List Nat) :
    u16be tid ++ u16be pid ++ u16be len_ ++ [uid, fid] ++ rest =
      (tid / 256 % 256) :: (tid % 256) :: (pid / 256 % 256) :: (pid % 256) ::
      (len_ / 256 % 256) :: (len_ % 256) :: uid :: fid :: rest := by
  simp [u16be]

/-- decode_data on a corrupt header: clears the buffer and raises. -/
lemma decode_data_corrupt (tid pid len_ uid fid L : Nat) (rest : List Nat)
    (ht : tid ≤ 0xFFFF) (hp : pid ≤ 0xFFFF) (_hl : len_ ≤ 0xFFFF)
    (hbad : ¬(tid = 0x5959 ∧ pid = 0x0001 ∧ uid = 0x01 ∧ fid = 0x02)) :
    Framer.decode_data ⟨u16be tid ++ u16be pid ++ u16be len_ ++ [uid, fid] ++ rest, L⟩ =
      .error ⟨[], 0⟩ := by
  rw [header_cons, decode_data_eq, u16be_parse ht, u16be_parse hp]
  rw [if_pos (by omega)]

/-- checkFrame on a corrupt header propagates the ValueError. -/
lemma checkFrame_corrupt (tid pid len_ uid fid L : Nat) (rest : List Nat)
    (ht : tid ≤ 0xFFFF) (hp : pid ≤ 0xFFFF) (hl : len_ ≤ 0xFFFF)
    (hbad : ¬(tid = 0x5959 ∧ pid = 0x0001 ∧ uid = 0x01 ∧ fid = 0x02)) :
    Framer.checkFrame ⟨u16be tid ++ u16be pid ++ u16be len_ ++ [uid, fid] ++ rest, L⟩ =
      .error ⟨[], 0⟩ := by
  have hready : Framer.isFrameReady
      ⟨u16be tid ++ u16be pid ++ u16be len_ ++ [uid, fid] ++ rest, L⟩ = true := by
    rw [header_cons]
    simp [Framer.isFrameReady]
  unfold Framer.checkFrame
  rw [hready]
  simp only [eq_self_iff_true, if_true]
  rw [decode_data_corrupt tid pid len_ uid fid L rest ht hp hl hbad]

/-- C7: for every 8-byte header carrying the sentinel transaction id 0x5959,
protocol id 0x0001, unit id 0x01 and outer function code 0x02, decode_data
returns the declared length field unchanged (along with the other header
fields) and leaves the buffer untouched; for every header in which the
sentinel fields deviate in any way it raises the corruption ValueError and
the entire buffer is cleared. -/
theorem c7_validate_and_measure :
    ∀ (tid pid len_ uid fid L : Nat) (rest : List Nat),
      tid ≤ 0xFFFF → pid ≤ 0xFFFF → len_ ≤ 0xFFFF →
      ((tid = 0x5959 ∧ pid = 0x0001 ∧ uid = 0x01 ∧ fid = 0x02) →
        Framer.decode_data ⟨u16be tid ++ u16be pid ++ u16be len_ ++ [uid, fid] ++ rest, L⟩ =
          .ok (some ⟨tid, pid, len_, uid, fid⟩,
            ⟨u16be tid ++ u16be pid ++ u16be len_ ++ [uid, fid] ++ rest, L⟩)) ∧
      (¬(tid = 0x5959 ∧ pid = 0x0001 ∧ uid = 0x01 ∧ fid = 0x02) →
        Framer.decode_data ⟨u16be tid ++ u16be pid ++ u16be len_ ++ [uid, fid] ++ rest, L⟩ =
          .error ⟨[], 0⟩) := by
  intro tid pid len_ uid fid L rest ht hp hl
  constructor
  · intro hgood
    rw [header_cons, decode_data_eq, u16be_parse ht, u16be_parse hp, u16be_parse hl]
    rw [if_neg (by omega)]
  · exact decode_data_corrupt tid pid len_ uid fid L rest ht hp hl

/-- Witness for C7: the sentinel header 5959 0001 0010 01 02 yields its
declared length 0x10 with the buffer untouched, while perturbing the
transaction id to 0x5958 clears the buffer with the corruption error. -/
theorem c7_validate_and_measure_witness :
    Framer.decode_data ⟨[0x59, 0x59, 0x00, 0x01, 0x00, 0x10, 0x01, 0x02], 0⟩ =
      .ok (some ⟨0x5959, 0x0001, 0x0010, 0x01, 0x02⟩,
        ⟨[0x59, 0x59, 0x00, 0x01, 0x00, 0x10, 0x01, 0x02], 0⟩) ∧
    Framer.decode_data ⟨[0x59, 0x58, 0x00, 0x01, 0x00, 0x10, 0x01, 0x02], 0⟩ =
      .error ⟨[], 0⟩ := by
  constructor
  · have h := (c7_validate_and_measure 0x5959 0x0001 0x0010 0x01 0x02 0 []
      (by decide) (by decide) (by decide)).1 ⟨rfl, rfl, rfl, rfl⟩
    rw [(by decide : (u16be 0x5959 ++ u16be 0x0001 ++ u16be 0x0010 ++ [0x01, 0x02] ++
      ([] : List Nat)) = [0x59, 0x59, 0x00, 0x01, 0x00, 0x10, 0x01, 0x02])] at h
    exact h
  · have h := (c7_validate_and_measure 0x5958 0x0001 0x0010 0x01 0x02 0 []
      (by decide) (by decide) (by decide)).2 (by decide)
    rw [(by decide : (u16be 0x5958 ++ u16be 0x0001 ++ u16be 0x0010 ++ [0x01, 0x02] ++
      ([] : List Nat)) = [0x59, 0x58, 0x00, 0x01, 0x00, 0x10, 0x01, 0x02])] at h
    exact h

/-- C3 counterexample: feeding a header whose transaction id field is
mismatched (0x0059 instead of 0x5959) makes process_stream raise the
corruption ValueError to its caller instead of returning normally, refuting
the claim that corruption never propagates past process_stream. -/
theorem c3_counterexample_corruption_raises :
    (processIncomingPacket (fun bs => some bs)
        [0x00, 0x59, 0x00, 0x01, 0x00, 0x04, 0x01, 0x02] ⟨[], 0⟩).2.2 =
      some FramerErr.valueError := by decide

/-- C3 amended: on a leading header with any mismatched sentinel field,
process_stream clears the entire buffer but raises the ValueError to its
caller (no messages are delivered); the framer, its buffer now empty, does
remain usable: a subsequently fed complete valid frame is decoded and
delivered normally. -/
theorem c3_corruption_clears_buffer_and_raises :
    ∀ {Msg : Type} (decodeFn : List Nat → Option Msg) (tid pid len_ uid fid : Nat)
      (rest : List Nat),
      tid ≤ 0xFFFF → pid ≤ 0xFFFF → len_ ≤ 0xFFFF →
      ¬(tid = 0x5959 ∧ pid = 0x0001 ∧ uid = 0x01 ∧ fid = 0x02) →
      (processIncomingPacket decodeFn
          (u16be tid ++ u16be pid ++ u16be len_ ++ [uid, fid] ++ rest) ⟨[], 0⟩ =
        ([], ⟨[], 0⟩, some .valueError)) ∧
      (∀ (p : List Nat) (m : Msg), decodeFn p = some m → p.length + 2 ≤ 0xFFFF →
        processIncomingPacket decodeFn (buildPacket p) ⟨[], 0⟩ =
          ([m], ⟨[], 0⟩, none)) := by
  intro Msg decodeFn tid pid len_ uid fid rest ht hp hl hbad
  constructor
  · have hready : Framer.isFrameReady
        ⟨u16be tid ++ u16be pid ++ u16be len_ ++ [uid, fid] ++ rest, 0⟩ = true := by
      rw [header_cons]
      simp [Framer.isFrameReady]
    unfold processIncomingPacket Framer.addToFrame
    simp only [List.nil_append]
    rw [show (u16be tid ++ u16be pid ++ u16be len_ ++ [uid, fid] ++ rest).length + 2 =
      ((u16be tid ++ u16be pid ++ u16be len_ ++ [uid, fid] ++ rest).length + 1) + 1 from rfl]
    rw [processLoop_step_error decodeFn _ _ _ [] hready
      (checkFrame_corrupt tid pid len_ uid fid 0 rest ht hp hl hbad)]
  · intro p m hm hlen
    exact processIncomingPacket_single decodeFn p m hm hlen

/-- Witness for C3 amended: the corrupt header 0059 0001 0004 01 02 is
dropped with the buffer cleared and the ValueError escaping, and a valid
one-byte-payload frame fed afterwards is decoded and delivered. -/
theorem c3_corruption_clears_buffer_and_raises_witness :
    (processIncomingPacket (fun bs => some bs)
        [0x00, 0x59, 0x00, 0x01, 0x00, 0x04, 0x01, 0x02] ⟨[], 0⟩ =
      ([], ⟨[], 0⟩, some .valueError)) ∧
    (processIncomingPacket (fun bs => some bs) (buildPacket [0xAA]) ⟨[], 0⟩ =
      ([[0xAA]], ⟨[], 0⟩, none)) := by
  have h := c3_corruption_clears_buffer_and_raises (fun bs => some bs) 0x0059 0x0001
    0x0004 0x01 0x02 [] (by decide) (by decide) (by decide) (by decide)
  constructor
  · have h1 := h.1
    rw [(by decide : (u16be 0x0059 ++ u16be 0x0001 ++ u16be 0x0004 ++ [0x01, 0x02] ++
      ([] : List Nat)) = [0x00, 0x59, 0x00, 0x01, 0x00, 0x04, 0x01, 0x02])] at h1
    exact h1
  · exact h.2 [0xAA] [0xAA] rfl (by decide)

/-- C8 counterexample: on the validly-sentinelled short-length header
5959 0001 0000 01 02 followed by the byte AA, checkFrame does not leave the
buffer at exactly the bytes following the 8-byte header: it advances only
8 + 0 - 2 = 6 bytes, so the last two header bytes remain. -/
theorem c8_short_frame_counterexample :
    Framer.checkFrame ⟨[0x59, 0x59, 0x00, 0x01, 0x00, 0x00, 0x01, 0x02, 0xAA], 0⟩ ≠
      .ok (false, ⟨[0xAA], 0⟩) := by decide

/-- C8 amended: on a validly-sentinelled header declaring length < 2,
checkFrame raises nothing and reports not-ready (false), but advances by
header_size + declared_length - 2 bytes (6 or 7, strictly less than the full
8-byte header), leaving the remainder of the buffer — including the tail of
the header — in place. -/
theorem c8_short_frame_advance :
    ∀ (len_ L : Nat) (rest : List Nat), len_ < 2 →
      Framer.checkFrame
          ⟨u16be 0x5959 ++ u16be 0x0001 ++ u16be len_ ++ [0x01, 0x02] ++ rest, L⟩ =
        .ok (false,
          ⟨(u16be 0x5959 ++ u16be 0x0001 ++ u16be len_ ++ [0x01, 0x02] ++ rest).drop
            (8 + len_ - 2), 0⟩) := by
  intro len_ L rest hshort
  have hready : Framer.isFrameReady
      ⟨u16be 0x5959 ++ u16be 0x0001 ++ u16be len_ ++ [0x01, 0x02] ++ rest, L⟩ = true := by
    rw [header_cons]
    simp [Framer.isFrameReady]
  unfold Framer.checkFrame
  rw [hready]
  simp only [eq_self_iff_true, if_true]
  rw [header_cons, decode_data_eq, if_neg (by decide)]
  simp only [u16be_parse (by omega : len_ ≤ 0xFFFF)]
  rw [if_pos hshort]
  rw [Framer.advanceFrame]

/-- Witness for C8 amended: with declared length 0 and one trailing byte,
checkFrame returns false and the buffer keeps the header tail 01 02 ahead of
the trailing AA byte. -/
theorem c8_short_frame_advance_witness :
    Framer.checkFrame ⟨[0x59, 0x59, 0x00, 0x01, 0x00, 0x00, 0x01, 0x02, 0xAA], 0⟩ =
      .ok (false, ⟨[0x01, 0x02, 0xAA], 0⟩) := by
  have h := c8_short_frame_advance 0 0 [0xAA] (by decide)
  rw [(by decide : (u16be 0x5959 ++ u16be 0x0001 ++ u16be 0 ++ [0x01, 0x02] ++
    [0xAA] : List Nat) = [0x59, 0x59, 0x00, 0x01, 0x00, 0x00, 0x01, 0x02, 0xAA])] at h
  rw [(by decide : ([0x59, 0x59, 0x00, 0x01, 0x00, 0x00, 0x01, 0x02, 0xAA] :
    List Nat).drop (8 + 0 - 2) = [0x01, 0x02, 0xAA])] at h
  exact h

/-- The length of a built packet. -/
lemma buildPacket_length (p : List Nat) : (buildPacket p).length = 8 + p.length := by
  rw [buildPacket_cons]
  simp
  omega

/-- C9: a single chunk holding exactly two complete valid frames back-to-back
invokes the callback exactly twice, first with the message decoded from the
first frame, then with the message decoded from the second, and leaves the
internal buffer empty. -/
theorem c9_two_frames_one_chunk :
    ∀ {Msg : Type} (decodeFn : List Nat → Option Msg) (p1 p2 : List Nat) (m1 m2 : Msg),
      decodeFn p1 = some m1 → decodeFn p2 = some m2 →
      p1.length + 2 ≤ 0xFFFF → p2.length + 2 ≤ 0xFFFF →
      processIncomingPacket decodeFn (buildPacket p1 ++ buildPacket p2) ⟨[], 0⟩ =
        ([m1, m2], ⟨[], 0⟩, none) := by
  intro Msg decodeFn p1 p2 m1 m2 h1 h2 hl1 hl2
  unfold processIncomingPacket Framer.addToFrame
  simp only [List.nil_append]
  rw [show (buildPacket p1 ++ buildPacket p2).length + 2 =
    (((buildPacket p1 ++ buildPacket p2).length + 1) + 1) from rfl]
  rw [processLoop_packet decodeFn _ p1 (buildPacket p2) 0 [] m1 h1 hl1]
  rw [show (buildPacket p2 : List Nat) = buildPacket p2 ++ [] from (List.append_nil _).symm]
  rw [processLoop_packet decodeFn _ p2 [] 0 ([] ++ [m1]) m2 h2 hl2]
  have hfuel : 1 ≤ (buildPacket p1 ++ (buildPacket p2 ++ [])).length := by
    rw [List.length_append, buildPacket_length]
    omega
  rw [processLoop_nil decodeFn _ _ hfuel]
  simp

/-- Witness for C9: the two frames with payloads AA and BB CC, concatenated
in one chunk, yield exactly the two payload messages in order and an empty
buffer. -/
theorem c9_two_frames_one_chunk_witness :
    processIncomingPacket (fun bs => some bs)
        (buildPacket [0xAA] ++ buildPacket [0xBB, 0xCC]) ⟨[], 0⟩ =
      ([[0xAA], [0xBB, 0xCC]], ⟨[], 0⟩, none) :=
  c9_two_frames_one_chunk (fun bs => some bs) [0xAA] [0xBB, 0xCC] [0xAA] [0xBB, 0xCC]
    rfl rfl (by decide) (by decide)

/-- encode_request on an allow-listed register produces exactly head,
register address, value and trailing check code. -/
lemma encode_request_bytes (r : HoldingRegister) (v : Int) (a : Nat)
    (hmem : r.name ∈ WRITE_SAFE_REGISTERS) :
    encode_request (some r) (some v) a =
      .ok (requestPduHead a ++ u16be r.value ++ u16be (v.toNat % 0x10000) ++
        u16be (crc16 ([0x06] ++ u16be r.value ++ u16be (v.toNat % 0x10000)))) := by
  rw [encode_request_eq, if_pos hmem]
  rfl

/-- C5: for every allow-listed register and every value in [0, 0xFFFF], the
trailing two bytes of the encoded write request are exactly the Modbus
CRC-16 computed over the five bytes inner function code 0x06, register
address (big-endian) and value (big-endian). -/
theorem c5_trailing_check_code :
    ∀ (r : HoldingRegister) (v : Int) (a : Nat),
      r.name ∈ WRITE_SAFE_REGISTERS → r.value ≤ 0xFFFF → 0 ≤ v → v ≤ 0xFFFF →
      ∃ bs, encode_request (some r) (some v) a = .ok bs ∧
        bs.drop (bs.length - 2) =
          u16be (crc16 ([0x06] ++ u16be r.value ++ u16be v.toNat)) := by
  intro r v a hmem hr hv0 hv1
  have hmod : v.toNat % 0x10000 = v.toNat := Nat.mod_eq_of_lt (by omega)
  have hb := encode_request_bytes r v a hmem
  rw [hmod] at hb
  refine ⟨_, hb, ?_⟩
  have hplen : (requestPduHead a ++ u16be r.value ++ u16be v.toNat).length = 17 := by
    simp [requestPduHead, u16be]
  have hlen : (requestPduHead a ++ u16be r.value ++ u16be v.toNat ++
      u16be (crc16 ([0x06] ++ u16be r.value ++ u16be v.toNat))).length = 19 := by
    simp [requestPduHead, u16be]
  rw [hlen, show (19 - 2 : Nat) = 17 from rfl, ← hplen]
  exact List.drop_left _ _

/-- Witness for C5 at the concrete register address 0x1234 (carried here by
the allow-listed name CHARGE_TARGET_SOC) and value 0x0005: the trailing two
bytes equal the CRC over 06 12 34 00 05. -/
theorem c5_trailing_check_code_witness :
    ∃ bs, encode_request (some ⟨"CHARGE_TARGET_SOC", 0x1234⟩) (some 5) 0x32 = .ok bs ∧
      bs.drop (bs.length - 2) = u16be (crc16 [0x06, 0x12, 0x34, 0x00, 0x05]) := by
  obtain ⟨bs, hb, hd⟩ := c5_trailing_check_code ⟨"CHARGE_TARGET_SOC", 0x1234⟩ 5 0x32
    (by decide) (by decide) (by decide) (by decide)
  refine ⟨bs, hb, ?_⟩
  rw [hd]
  decide

/-- extract_payload inverts build_outgoing: extracting the payload of a
built packet returns exactly the encoded PDU bytes. -/
lemma extract_payload_buildPacket (enc : List Nat) (h : enc.length + 2 ≤ 0xFFFF) :
    extract_payload (buildPacket enc) = enc := by
  unfold extract_payload
  rw [buildPacket_cons]
  simp only [List.getD_cons_zero, List.getD_cons_succ]
  rw [u16be_parse h, Framer.getFrame]
  show enc.take (enc.length + 2 - 2) = enc
  rw [Nat.add_sub_cancel]
  exact List.take_length enc

/-- Decoding a write-request PDU bytewise: the dispatcher strips the 13-byte
head, sees inner function code 6, and the codec reads register address,
value and check. -/
lemma decode_requestPdu (lookup : Nat → Option HoldingRegister) (a rv vn c : Nat)
    (r : HoldingRegister) (hrv : rv ≤ 0xFFFF) (hvn : vn ≤ 0xFFFF)
    (hlook : lookup rv = some r) :
    decode lookup (requestPduHead a ++ u16be rv ++ u16be vn ++ u16be c) =
      some ⟨some r, some (Int.ofNat vn), a, c / 256 % 256 * 256 + c % 256⟩ := by
  have hform : requestPduHead a ++ u16be rv ++ u16be vn ++ u16be c =
      0x41 :: 0x42 :: 0x31 :: 0x32 :: 0x33 :: 0x34 :: 0x47 :: 0x35 :: 0x36 :: 0x37 ::
      0x00 :: a :: 0x06 :: (rv / 256 % 256) :: (rv % 256) :: (vn / 256 % 256) ::
      (vn % 256) :: (c / 256 % 256) :: (c % 256) :: [] := by
    simp [requestPduHead, u16be]
  rw [hform]
  show (if (0x06 : Nat) = 6 then
    decode_inner_function lookup a ((rv / 256 % 256) :: (rv % 256) :: (vn / 256 % 256) ::
      (vn % 256) :: (c / 256 % 256) :: (c % 256) :: []) else none) = _
  rw [if_pos rfl]
  show (match lookup (rv / 256 % 256 * 256 + rv % 256) with
    | some reg =>
      match mkWriteHoldingRegister (some reg)
          (some (Int.ofNat (vn / 256 % 256 * 256 + vn % 256))) a
          (c / 256 % 256 * 256 + c % 256) with
      | .ok m => some m
      | .error _ => none
    | none => none) = _
  rw [u16be_parse hrv, u16be_parse hvn, hlook]
  rfl

/-- C6: for every allow-listed register, every value in [0, 0xFFFF], and a
register catalog that maps the register address back to that register,
decoding the payload extracted from the outgoing packet built from the
encoded request recovers the same register and the same value. -/
theorem c6_round_trip :
    ∀ (lookup : Nat → Option HoldingRegister) (r : HoldingRegister) (v : Int) (a : Nat),
      r.name ∈ WRITE_SAFE_REGISTERS → r.value ≤ 0xFFFF → 0 ≤ v → v ≤ 0xFFFF →
      lookup r.value = some r →
      ∃ bs m, encode_request (some r) (some v) a = .ok bs ∧
        decode lookup (extract_payload (buildPacket bs)) = some m ∧
        m.register = some r ∧ m.value = some v := by
  intro lookup r v a hmem hr hv0 hv1 hlook
  have hmod : v.toNat % 0x10000 = v.toNat := Nat.mod_eq_of_lt (by omega)
  have hb := encode_request_bytes r v a hmem
  rw [hmod] at hb
  have hlen : (requestPduHead a ++ u16be r.value ++ u16be v.toNat ++
      u16be (crc16 ([0x06] ++ u16be r.value ++ u16be v.toNat))).length = 19 := by
    simp [requestPduHead, u16be]
  refine ⟨_, ⟨some r, some (Int.ofNat v.toNat), a,
    crc16 ([0x06] ++ u16be r.value ++ u16be v.toNat) / 256 % 256 * 256 +
      crc16 ([0x06] ++ u16be r.value ++ u16be v.toNat) % 256⟩, hb, ?_, rfl, ?_⟩
  · rw [extract_payload_buildPacket _ (by rw [hlen]; omega)]
    exact decode_requestPdu lookup a r.value v.toNat
      (crc16 ([0x06] ++ u16be r.value ++ u16be v.toNat)) r hr (by omega) hlook
  · show some (Int.ofNat v.toNat) = some v
    rw [Int.ofNat_eq_coe, Int.toNat_of_nonneg hv0]

/-- Witness for C6: writing value 7 to the allow-listed ENABLE_CHARGE
register (address 20) round-trips through encode, framing, extraction and
decode under a catalog mapping 20 back to the register. -/
theorem c6_round_trip_witness :
    ∃ bs m,
      encode_request (some ⟨"ENABLE_CHARGE", 20⟩) (some 7) 0x32 = .ok bs ∧
      decode (fun n => if n = 20 then some ⟨"ENABLE_CHARGE", 20⟩ else none)
        (extract_payload (buildPacket bs)) = some m ∧
      m.register = some (⟨"ENABLE_CHARGE", 20⟩ : HoldingRegister) ∧
      m.value = some (7 : Int) :=
  c6_round_trip (fun n => if n = 20 then some ⟨"ENABLE_CHARGE", 20⟩ else none)
    ⟨"ENABLE_CHARGE", 20⟩ 7 0x32 (by decide) (by decide) (by decide) (by decide)
    (by decide)

/-- C1: for every register whose name is not in the write-safe allow-list and
every integer value, encode_request fails with the unsafe-register error
before producing any PDU bytes; for every allow-listed register the safety
check passes (the unsafe-register error is never raised). -/
theorem c1_unsafe_register_gate :
    (∀ (r : HoldingRegister) (v : Int) (a : Nat), r.name ∉ WRITE_SAFE_REGISTERS →
      encode_request (some r) (some v) a = .error .unsafeRegister) ∧
    (∀ (r : HoldingRegister) (v : Int) (a : Nat), r.name ∈ WRITE_SAFE_REGISTERS →
      encode_request (some r) (some v) a ≠ .error .unsafeRegister) := by
  constructor
  · intro r v a hnot
    rw [encode_request_eq, if_neg hnot]
  · intro r v a hmem
    rw [encode_request_eq, if_pos hmem]
    exact fun h => Except.noConfusion h

/-- Witness for C1 at concrete registers: a register named OUTSIDE is refused
with the unsafe-register error for value 1, and the allow-listed
ENABLE_CHARGE register is not refused with that error. -/
theorem c1_unsafe_register_gate_witness :
    encode_request (some ⟨"OUTSIDE", 0⟩) (some 1) 0x32 = .error .unsafeRegister ∧
    encode_request (some ⟨"ENABLE_CHARGE", 20⟩) (some 1) 0x32 ≠ .error .unsafeRegister :=
  ⟨c1_unsafe_register_gate.1 ⟨"OUTSIDE", 0⟩ 1 0x32 (by decide),
   c1_unsafe_register_gate.2 ⟨"ENABLE_CHARGE", 20⟩ 1 0x32 (by decide)⟩

/-- C4: the claim that ensure_valid_state fails for every value outside
[0, 0xFFFF] is violated by the code: the chained comparison 0 > value >
0xFFFF in the source is unsatisfiable, so validation succeeds for every
integer value whatsoever once register and value are set — in particular at
the out-of-range values 0x10000 and -1. -/
theorem c4_value_range_check_never_fails :
    (∀ (r : HoldingRegister) (v : Int) (a c : Nat),
      WriteHoldingRegister.ensure_valid_state ⟨some r, some v, a, c⟩ = .ok ()) ∧
    WriteHoldingRegister.ensure_valid_state
      ⟨some ⟨"ENABLE_CHARGE", 20⟩, some 0x10000, 0x32, 0⟩ = .ok () ∧
    WriteHoldingRegister.ensure_valid_state
      ⟨some ⟨"ENABLE_CHARGE", 20⟩, some (-1), 0x32, 0⟩ = .ok () :=
  ⟨fun r v a c => whr_esv_ok r v a c,
   whr_esv_ok ⟨"ENABLE_CHARGE", 20⟩ 0x10000 0x32 0,
   whr_esv_ok ⟨"ENABLE_CHARGE", 20⟩ (-1) 0x32 0⟩

/-- C10: for every write request that passes request validation,
expected_response constructs a response carrying the same register, the same
value and the same slave address. -/
theorem c10_expected_response_mirrors_request :
    ∀ (m : WriteHoldingRegister),
      WriteHoldingRegisterRequest.ensure_valid_state m = .ok () →
      ∃ resp, expected_response m = .ok resp ∧ resp.register = m.register ∧
        resp.value = m.value ∧ resp.slave_address = m.slave_address := by
  intro m hvalid
  obtain ⟨reg, v, a, c⟩ := m
  cases reg with
  | none =>
    exact absurd hvalid (by simp [WriteHoldingRegisterRequest.ensure_valid_state,
      WriteHoldingRegister.ensure_valid_state])
  | some r =>
    exact ⟨⟨some r, v, a, 0⟩, rfl, rfl, rfl, rfl⟩

/-- Witness for C10 at a concrete validated request: writing 1 to
ENABLE_CHARGE from slave address 0x32. -/
theorem c10_expected_response_mirrors_request_witness :
    ∃ resp, expected_response ⟨some ⟨"ENABLE_CHARGE", 20⟩, some 1, 0x32, 0⟩ = .ok resp ∧
      resp.register = some (⟨"ENABLE_CHARGE", 20⟩ : HoldingRegister) ∧
      resp.value = some (1 : Int) ∧ resp.slave_address = 0x32 :=
  c10_expected_response_mirrors_request ⟨some ⟨"ENABLE_CHARGE", 20⟩, some 1, 0x32, 0⟩
    (by decide)

/-- C2: re-chunking invariance fails on the code. The single valid 10-byte
frame 5959 0001 0004 01 02 AA BB decodes to one message when delivered in
one chunk, but when delivered as a chunk of 8 bytes followed by a chunk of
2 bytes, the first call finds the header ready yet the frame incomplete,
checkFrame reports false, and processIncomingPacket resets the whole buffer,
dropping the partial frame; the remaining bytes never form a message, so the
chunked delivery yields no messages at all. -/
theorem c2_rechunking_drops_partial_frame :
    processIncomingPacket (fun bs => some bs)
      [0x59, 0x59, 0x00, 0x01, 0x00, 0x04, 0x01, 0x02, 0xAA, 0xBB] ⟨[], 0⟩ =
      ([[0xAA, 0xBB]], ⟨[], 0⟩, none) ∧
    processIncomingPacket (fun bs => some bs)
      [0x59, 0x59, 0x00, 0x01, 0x00, 0x04, 0x01, 0x02] ⟨[], 0⟩ =
      ([], ⟨[], 0⟩, none) ∧
    processIncomingPacket (fun bs => some bs) [0xAA, 0xBB] ⟨[], 0⟩ =
      ([], ⟨[0xAA, 0xBB], 0⟩, none) := by
  refine ⟨by decide, by decide, by decide⟩
